import Mathlib

/-!
Shallow embedding of the mpv client API core (src/unnamed/part_000, an early
revision of player/client.c, together with its public header
src/player/client_api.h).  External collaborators that the spec declares out
of scope (the byte ring primitive, the dispatch bridge, the property store,
the command parser, the log buffer) are modelled from the spec's interface
contracts; everything else is translated directly from the C source.
-/

/-- Event kind constants from client_api.h (values 0..15). -/
def MPV_EVENT_NONE : Nat := 0

def MPV_EVENT_OK : Nat := 1

def MPV_EVENT_ERROR : Nat := 2

def MPV_EVENT_SHUTDOWN : Nat := 3

def MPV_EVENT_LOG_MESSAGE : Nat := 4

def MPV_EVENT_TICK : Nat := 5

def MPV_EVENT_PROPERTY : Nat := 6

def MPV_EVENT_START_FILE : Nat := 7

def MPV_EVENT_END_FILE : Nat := 8

def MPV_EVENT_PLAYBACK_START : Nat := 9

def MPV_EVENT_TRACKS_CHANGED : Nat := 10

def MPV_EVENT_TRACK_SWITCHED : Nat := 11

def MPV_EVENT_IDLE : Nat := 12

def MPV_EVENT_PAUSE : Nat := 13

def MPV_EVENT_UNPAUSE : Nat := 14

def MPV_EVENT_SCRIPT_INPUT_DISPATCH : Nat := 15

/-- Error code constants from client_api.h (all non-positive). -/
def MPV_ERROR_SUCCESS : Int := 0

def MPV_ERROR_EVENT_BUFFER_FULL : Int := -1

def MPV_ERROR_INVALID_PARAMETER : Int := -2

def MPV_ERROR_NOMEM : Int := -3

def MPV_ERROR_NOT_FOUND : Int := -4

def MPV_ERROR_PROPERTY : Int := -5

def MPV_ERROR_PROPERTY_UNAVAILABLE : Int := -6

def MPV_ERROR_UNINITIALIZED : Int := -7

/-- Format constants from client_api.h. -/
def MPV_FORMAT_NONE : Int := 0

def MPV_FORMAT_STRING : Int := 1

def MPV_FORMAT_OSD_STRING : Int := 2

/-- Modelled from the spec: one entry of the engine's log buffer
(`mp_msg_log_buffer_read() gives prefix, level, text`); the log buffer
implementation lives outside src/. -/
structure LogEntry where
  prefixText : String
  level : Nat
  text : String
deriving DecidableEq

/-- Variant payload hanging off an event record's `data` pointer.  `ptr` is an
opaque producer-supplied payload identified by an allocation id, `logMsg` is
the mpv_event_log_message record built by mpv_wait_event, and `propData` is
the mpv_event_property record built by getproperty_fn. -/
inductive Payload where
  | ptr (id : Nat)
  | logMsg (msg : LogEntry)
  | propData (name : String) (format : Int) (value : Option String)
deriving DecidableEq

/-- The struct mpv_event_data record of client_api.h: reply correlation id,
event kind, error code and owning payload pointer (none = NULL). -/
structure MpvEventData where
  in_reply_to : Int
  event_id : Nat
  error : Int
  data : Option Payload
deriving DecidableEq

/-- A zero-initialized event record, as produced by `*event = (mpv_event_data){0}`
or a C designated initializer leaving fields out. -/
def zeroEvent : MpvEventData :=
  { in_reply_to := 0, event_id := MPV_EVENT_NONE, error := 0, data := none }

/-- Size in bytes of struct mpv_event_data on an LP64 target (int64 + int +
int + pointer).  Only its positivity and exact divisibility of the ring
capacity matter. -/
def eventSize : Nat := 24

/-- Modelled from the spec: the byte-ring primitive (misc/ring) is an external
collaborator; per the spec contract it is a fixed-capacity FIFO whose records
are written whole-or-not-at-all.  Capacity is in bytes; the buffer holds whole
event records of eventSize bytes each. -/
structure mp_ring where
  capacity : Nat
  buf : List MpvEventData
deriving DecidableEq

/-- Number of bytes currently buffered in the ring. -/
def mp_ring_buffered (r : mp_ring) : Nat := r.buf.length * eventSize

/-- Number of free bytes in the ring. -/
def mp_ring_available (r : mp_ring) : Nat := r.capacity - mp_ring_buffered r

/-- Write one whole event record; returns the new ring and the byte count
actually written (eventSize on success, 0 if there is no room). -/
def mp_ring_write (r : mp_ring) (e : MpvEventData) : mp_ring × Nat :=
  if eventSize ≤ mp_ring_available r then ({ r with buf := r.buf ++ [e] }, eventSize)
  else (r, 0)

/-- Read one whole event record from the front of the ring, if any. -/
def mp_ring_read (r : mp_ring) : Option (MpvEventData × mp_ring) :=
  match r.buf with
  | [] => none
  | e :: rest => some (e, { r with buf := rest })

/-- The lock-protected state of struct mpv_handle (client.c lines 30-59).
Fields that only matter for threading (the mutex, the condition variable, the
wakeup callback pointers) are represented by their observable effects in the
operations below. -/
structure MpvHandle where
  name : String
  alloc_reply_id : Nat
  event_mask : Nat
  queued_wakeup : Bool
  shutdown : Bool
  choke_warning : Bool
  events : mp_ring
  max_events : Nat
  reserved_events : Nat
  messages : Option (List LogEntry)
deriving DecidableEq

/-- Default event mask from mp_new_client: every bit of a uint64 set except
the MPV_EVENT_TICK bit. -/
def defaultEventMask : Nat := (2 ^ 64 - 1) ^^^ (1 <<< MPV_EVENT_TICK)

/-- The freshly initialized mpv_handle built by mp_new_client for a given
(already uniquified) name: num_events = 1000 ring entries, zeroed counters,
default event mask, no log tap. -/
def mkHandle (name : String) : MpvHandle :=
  { name := name
    alloc_reply_id := 0
    event_mask := defaultEventMask
    queued_wakeup := false
    shutdown := false
    choke_warning := false
    events := { capacity := 1000 * eventSize, buf := [] }
    max_events := 1000
    reserved_events := 0
    messages := none }

/-- reserve_reply (client.c lines 253-263): under the handle lock, if
reserved_events < max_events, increment reserved_events and return the
incremented alloc_reply_id; otherwise return MPV_ERROR_EVENT_BUFFER_FULL and
leave the handle unchanged. -/
def reserve_reply (ctx : MpvHandle) : Int × MpvHandle :=
  if ctx.reserved_events < ctx.max_events then
    (((ctx.alloc_reply_id + 1 : Nat) : Int),
      { ctx with
        reserved_events := ctx.reserved_events + 1
        alloc_reply_id := ctx.alloc_reply_id + 1 })
  else (MPV_ERROR_EVENT_BUFFER_FULL, ctx)

/-- Result of one send_event call: the updated handle, the int return value,
whether the one-shot choke warning line was logged on this call, and whether
wakeup_client was signalled. -/
structure SendEventResult where
  ctx : MpvHandle
  ret : Int
  logged : Bool
  wokeUp : Bool
deriving DecidableEq

/-- send_event (client.c lines 265-286).  Mask-filtered unsolicited delivery:
if the mask bit of the event kind is clear, success no-op; otherwise write the
record and wake the client iff available/sizeof exceeds reserved_events, else
drop, returning -1 and logging the choke warning at most once (latch).
`none` models the abort() on a partial ring write. -/
def send_event (ctx : MpvHandle) (event : MpvEventData) : Option SendEventResult :=
  if ¬ Nat.testBit ctx.event_mask event.event_id then
    some ⟨ctx, 0, false, false⟩
  else
    let num_events := mp_ring_available ctx.events / eventSize
    if ctx.reserved_events < num_events then
      let wr := mp_ring_write ctx.events event
      if wr.2 = eventSize then some ⟨{ ctx with events := wr.1 }, 0, false, true⟩
      else none
    else if ¬ ctx.choke_warning then
      some ⟨{ ctx with choke_warning := true }, -1, true, false⟩
    else
      some ⟨ctx, -1, false, false⟩

/-- send_reply (client.c lines 290-301): requires a prior reservation
(assert reserved_events > 0), decrements it, writes the record and wakes the
client.  Note the reply_id parameter is accepted but never written into the
event record.  `none` models the assert failure or the abort() on a failed
ring write. -/
def send_reply (ctx : MpvHandle) (reply_id : Int) (event : MpvEventData) :
    Option MpvHandle :=
  if 0 < ctx.reserved_events then
    let ctx2 := { ctx with reserved_events := ctx.reserved_events - 1 }
    let wr := mp_ring_write ctx2.events event
    if wr.2 = eventSize then some { ctx2 with events := wr.1 } else none
  else none

/-- send_error_reply (client.c lines 303-310): an MPV_EVENT_ERROR record with
the error code, all other fields zero-initialized, sent via send_reply. -/
def send_error_reply (ctx : MpvHandle) (reply_id : Int) (err : Int) :
    Option MpvHandle :=
  send_reply ctx reply_id { zeroEvent with event_id := MPV_EVENT_ERROR, error := err }

/-- mp_client_status_reply (client.c lines 312-322): negative status becomes an
ERROR reply carrying the status, non-negative status becomes an OK reply. -/
def mp_client_status_reply (ctx : MpvHandle) (reply_id : Int) (status : Int) :
    Option MpvHandle :=
  if status < 0 then send_error_reply ctx reply_id status
  else send_reply ctx reply_id { zeroEvent with event_id := MPV_EVENT_OK }

/-- find_client (client.c lines 88-96): linear scan of the registry for a
client with the given name. -/
def find_client (clients : List MpvHandle) (name : String) : Option MpvHandle :=
  clients.find? (fun c => c.name == name)

/-- The fan-out loop of mp_client_broadcast_event: send_event on every
registered handle in registry order; `none` propagates an abort. -/
def broadcast_clients (clients : List MpvHandle) (event_data : MpvEventData) :
    Option (List MpvHandle) :=
  match clients with
  | [] => some []
  | c :: rest =>
    match send_event c event_data with
    | none => none
    | some res =>
      match broadcast_clients rest event_data with
      | none => none
      | some rest2 => some (res.ctx :: rest2)

/-- mp_client_broadcast_event (client.c lines 324-341): build a record with
everything but event_id and data zero-initialized, send_event it to every
registered client under the registry lock, then call talloc_free(data) once.
The second component of the result is the log of talloc_free calls the
function performs on producer payloads, in order. -/
def mp_client_broadcast_event (clients : List MpvHandle) (event : Nat)
    (data : Option Payload) : Option (List MpvHandle × List (Option Payload)) :=
  let event_data : MpvEventData := { zeroEvent with event_id := event, data := data }
  match broadcast_clients clients event_data with
  | none => none
  | some cs => some (cs, [data])

/-- Replace the first registry entry carrying the given name (the handle that
find_client returned and that the C code mutates in place). -/
def replace_first (clients : List MpvHandle) (name : String) (h : MpvHandle) :
    List MpvHandle :=
  match clients with
  | [] => []
  | c :: rest =>
    if c.name == name then h :: rest else c :: replace_first rest name h

/-- mp_client_send_event (client.c lines 343-367): look the client up by name;
if found, send_event to it (data is not freed); otherwise talloc_free(data)
and return -1.  The result carries the int return value, the updated registry
and the log of talloc_free calls on producer payloads. -/
def mp_client_send_event (clients : List MpvHandle) (client_name : String)
    (event : Nat) (data : Option Payload) :
    Option (Int × List MpvHandle × List (Option Payload)) :=
  let event_data : MpvEventData := { zeroEvent with event_id := event, data := data }
  match find_client clients client_name with
  | some ctx =>
    match send_event ctx event_data with
    | none => none
    | some res => some (res.ret, replace_first clients client_name res.ctx, [])
  | none => some (-1, clients, [data])

/-- event_table (client.c lines 796-813): names of the 16 event kinds. -/
def event_table : List String :=
  ["none", "ok", "error", "shutdown", "log-message", "tick", "property",
   "start-file", "end-file", "playback-start", "tracks-changed",
   "track-switched", "idle", "pause", "unpause", "script-input-dispatch"]

/-- mpv_event_name (client.c lines 815-820): NULL for out-of-range kinds. -/
def mpv_event_name (event : Int) : Option String :=
  if event < 0 ∨ 16 ≤ event then none else event_table.get? event.toNat

/-- mpv_request_event (client.c lines 369-378): validate the kind and the
enable flag, then set or clear one bit of the 64-bit event mask. -/
def mpv_request_event (ctx : MpvHandle) (event : Int) (enable : Int) :
    Int × MpvHandle :=
  if (mpv_event_name event).isNone ∨ enable < 0 ∨ 1 < enable then
    (MPV_ERROR_INVALID_PARAMETER, ctx)
  else
    let bit : Nat := 1 <<< event.toNat
    let newMask :=
      if enable = 1 then ctx.event_mask ||| bit
      else ctx.event_mask &&& ((2 ^ 64 - 1) ^^^ bit)
    (0, { ctx with event_mask := newMask })

/-- Modelled from the spec: mp_msg_log_buffer_read on the client's log tap
returns the oldest pending entry and the remaining queue, or nothing when the
tap is absent or empty. -/
def tap_read (ms : Option (List LogEntry)) :
    Option (LogEntry × Option (List LogEntry)) :=
  match ms with
  | some (m :: rest) => some (m, some rest)
  | _ => none

/-- Outcome of one pass over the body of mpv_wait_event's while loop: either
the loop breaks with a filled-in scratch event, or it reaches the
pthread_cond_timedwait (the only blocking point). -/
inductive WaitOutcome where
  | ret (e : MpvEventData) (h : MpvHandle)
  | block (h : MpvHandle)
deriving DecidableEq

/-- One iteration of the mpv_wait_event loop body (client.c lines 391-426),
starting from a zeroed scratch event: pop a buffered ring record, else
synthesize SHUTDOWN, else a pending log-tap message becomes LOG_MESSAGE, else
a queued wakeup or a non-positive timeout yields NONE, else block on the
condition variable. -/
def wait_event_step (ctx : MpvHandle) (timeout : Rat) : WaitOutcome :=
  match mp_ring_read ctx.events with
  | some (e, ring2) => .ret e { ctx with events := ring2 }
  | none =>
    if ctx.shutdown then .ret { zeroEvent with event_id := MPV_EVENT_SHUTDOWN } ctx
    else
      match tap_read ctx.messages with
      | some (m, ms2) =>
        .ret { zeroEvent with event_id := MPV_EVENT_LOG_MESSAGE, data := some (.logMsg m) }
          { ctx with messages := ms2 }
      | none =>
        if ctx.queued_wakeup then .ret zeroEvent ctx
        else if timeout ≤ 0 then .ret zeroEvent ctx
        else .block ctx

/-- mpv_wait_event (client.c lines 380-432).  The loop runs wait_event_step;
whenever it breaks, `queued_wakeup` is set to false and the scratch event is
returned.  A blocking step releases the lock inside pthread_cond_timedwait,
during which other threads may mutate the handle: each element of `updates`
is one such external mutation applied before the loop re-runs.  `none` means
the call has not returned within the supplied schedule. -/
def mpv_wait_event_go (timeout : Rat) :
    MpvHandle → List (MpvHandle → MpvHandle) → Option (MpvEventData × MpvHandle)
  | ctx, updates =>
    match wait_event_step ctx timeout with
    | .ret e h => some (e, { h with queued_wakeup := false })
    | .block h =>
      match updates with
      | [] => none
      | u :: rest => mpv_wait_event_go timeout (u h) rest

/-- mpv_wakeup (client.c lines 434-440): set queued_wakeup and signal. -/
def mpv_wakeup (ctx : MpvHandle) : MpvHandle := { ctx with queued_wakeup := true }

/-- The suffix-search loop of mp_new_client (client.c lines 104-110):
for n = 2; n < 1000; n++ try name||n until one is free.  The loop runs at
most 998 iterations, counted by the structural fuel argument. -/
def find_suffix_loop (clients : List MpvHandle) (name : String) :
    Nat → Nat → Option String
  | _, 0 => none
  | n, fuel + 1 =>
    if n < 1000 then
      let candidate := name ++ Nat.repr n
      if find_client clients candidate = none then some candidate
      else find_suffix_loop clients name (n + 1) fuel
    else none

/-- The full unique-name search of mp_new_client, starting at suffix 2. -/
def find_suffix_from (clients : List MpvHandle) (name : String) : Option String :=
  find_suffix_loop clients name 2 998

/-- mp_new_client (client.c lines 98-140): if the requested name is taken,
find the first free suffixed name (or fail with NULL); register a fresh
handle under the chosen name by appending it to the client table. -/
def mp_new_client (clients : List MpvHandle) (name : String) :
    Option (MpvHandle × List MpvHandle) :=
  if (find_client clients name).isSome then
    match find_suffix_from clients name with
    | none => none
    | some un => some (mkHandle un, clients ++ [mkHandle un])
  else some (mkHandle name, clients ++ [mkHandle name])

/-- Modelled from the spec: a parsed command object produced by the external
command parser (mp_input_parse_cmd / mp_input_parse_cmd_strv); its contents
are opaque to the client core. -/
structure mp_cmd where
  tag : Nat
deriving DecidableEq

/-- Modelled from the spec: the status values of the external property store
(mp_property_do), a closed set per the spec's interface contract. -/
inductive PropertyStatus where
  | M_PROPERTY_OK
  | M_PROPERTY_ERROR
  | M_PROPERTY_UNAVAILABLE
  | M_PROPERTY_NOT_IMPLEMENTED
  | M_PROPERTY_UNKNOWN
deriving DecidableEq

/-- translate_property_error (client.c lines 568-579). -/
def translate_property_error (errc : PropertyStatus) : Int :=
  match errc with
  | .M_PROPERTY_OK => 0
  | .M_PROPERTY_ERROR => MPV_ERROR_PROPERTY
  | .M_PROPERTY_UNAVAILABLE => MPV_ERROR_PROPERTY_UNAVAILABLE
  | .M_PROPERTY_NOT_IMPLEMENTED => MPV_ERROR_PROPERTY
  | .M_PROPERTY_UNKNOWN => MPV_ERROR_NOT_FOUND

/-- The two property verbs the client core uses (M_PROPERTY_GET_STRING and
M_PROPERTY_PRINT); other formats map to an error. -/
inductive PropVerb where
  | GET_STRING
  | PRINT
deriving DecidableEq

/-- property_format_to_cmd (client.c lines 639-646): none stands for the
MPV_ERROR_INVALID_PARAMETER return value. -/
def property_format_to_cmd (format : Int) : Option PropVerb :=
  if format = MPV_FORMAT_STRING then some .GET_STRING
  else if format = MPV_FORMAT_OSD_STRING then some .PRINT
  else none

/-- A request record enqueued on the dispatch bridge by run_async, carrying
the reply id that run_async stored into it (cmd_request, setproperty_request
or getproperty_request with reply_ctx set). -/
inductive Request where
  | cmd (reply_id : Int)
  | setprop (name value : String) (reply_id : Int)
  | getprop (name : String) (format : Int) (reply_id : Int)
deriving DecidableEq

/-- A client handle together with the engine state it references: the
mpctx->initialized flag and the dispatch-bridge queue of this client's
pending asynchronous requests (FIFO). -/
structure ClientState where
  initialized : Bool
  handle : MpvHandle
  queue : List Request
deriving DecidableEq

/-- run_async (client.c lines 492-503): reserve a reply slot; on failure free
fn_data and return the error; on success store the reply id into the request
and enqueue it on the dispatch bridge. -/
def run_async (st : ClientState) (req : Int → Request) : Int × ClientState :=
  let r := reserve_reply st.handle
  if r.1 < 0 then (r.1, { st with handle := r.2 })
  else (r.1, { st with handle := r.2, queue := st.queue ++ [req r.1] })

/-- run_client_command (client.c lines 523-536): uninitialized check first,
then NULL-command check, then the command runs on the engine thread via
run_locked and the status (always 0, see cmd_fn) is returned. -/
def run_client_command (st : ClientState) (cmd : Option mp_cmd) : Int × ClientState :=
  if ¬ st.initialized then (MPV_ERROR_UNINITIALIZED, st)
  else
    match cmd with
    | none => (MPV_ERROR_INVALID_PARAMETER, st)
    | some _ => (0, st)

/-- mpv_command (client.c lines 538-542); the external argv parser's result is
passed as an oracle. -/
def mpv_command (st : ClientState) (parsed : Option mp_cmd) : Int × ClientState :=
  run_client_command st parsed

/-- mpv_command_string (client.c lines 544-548); the external string parser's
result is passed as an oracle. -/
def mpv_command_string (st : ClientState) (parsed : Option mp_cmd) :
    Int × ClientState :=
  run_client_command st parsed

/-- mpv_command_async (client.c lines 550-566): uninitialized check, parse
check, then run_async with a cmd_request whose reply_ctx is the caller. -/
def mpv_command_async (st : ClientState) (parsed : Option mp_cmd) :
    Int × ClientState :=
  if ¬ st.initialized then (MPV_ERROR_UNINITIALIZED, st)
  else
    match parsed with
    | none => (MPV_ERROR_INVALID_PARAMETER, st)
    | some _ => run_async st Request.cmd

/-- mpv_set_property (client.c lines 600-614): uninitialized check, then only
MPV_FORMAT_STRING is accepted; the engine-thread property store call is the
propDo oracle. -/
def mpv_set_property (st : ClientState) (name : String) (format : Int)
    (value : String) (propDo : String → String → PropertyStatus) :
    Int × ClientState :=
  if ¬ st.initialized then (MPV_ERROR_UNINITIALIZED, st)
  else if format ≠ MPV_FORMAT_STRING then (MPV_ERROR_INVALID_PARAMETER, st)
  else (translate_property_error (propDo name value), st)

/-- mpv_set_property_async (client.c lines 621-637): uninitialized check,
string-format check, then run_async with a setproperty_request. -/
def mpv_set_property_async (st : ClientState) (name : String) (format : Int)
    (value : String) : Int × ClientState :=
  if ¬ st.initialized then (MPV_ERROR_UNINITIALIZED, st)
  else if format ≠ MPV_FORMAT_STRING then (MPV_ERROR_INVALID_PARAMETER, st)
  else run_async st (Request.setprop name value)

/-- mpv_get_property (client.c lines 692-706): uninitialized check, then
getproperty_fn runs synchronously: an unknown format yields the negative
verb-translation error, otherwise the property store's status. -/
def mpv_get_property (st : ClientState) (name : String) (format : Int)
    (propDo : String → PropVerb → PropertyStatus) : Int × ClientState :=
  if ¬ st.initialized then (MPV_ERROR_UNINITIALIZED, st)
  else
    match property_format_to_cmd format with
    | none => (MPV_ERROR_INVALID_PARAMETER, st)
    | some verb => (translate_property_error (propDo name verb), st)

/-- mpv_get_property_async (client.c lines 722-736): uninitialized check, then
run_async with a getproperty_request (the format is validated only later, on
the engine thread). -/
def mpv_get_property_async (st : ClientState) (name : String) (format : Int) :
    Int × ClientState :=
  if ¬ st.initialized then (MPV_ERROR_UNINITIALIZED, st)
  else run_async st (Request.getprop name format)

/-- Engine-thread execution of one dispatched request (cmd_fn lines 513-521,
setproperty_fn lines 591-598, getproperty_fn lines 658-690): run the work,
then send the reply to the requesting client with the stored reply id.
cmd_fn always reports status 0; the property oracles supply the store's
results.  Note every reply record is built with in_reply_to left
zero-initialized. -/
def runRequest (propSet : String → String → PropertyStatus)
    (propGet : String → PropVerb → PropertyStatus × Option String)
    (h : MpvHandle) (r : Request) : Option MpvHandle :=
  match r with
  | .cmd reply_id => mp_client_status_reply h reply_id 0
  | .setprop name value reply_id =>
    mp_client_status_reply h reply_id (translate_property_error (propSet name value))
  | .getprop name format reply_id =>
    match property_format_to_cmd format with
    | none => send_error_reply h reply_id MPV_ERROR_INVALID_PARAMETER
    | some verb =>
      let pr := propGet name verb
      let status := translate_property_error pr.1
      if status < 0 then send_error_reply h reply_id status
      else
        send_reply h reply_id
          { zeroEvent with
            event_id := MPV_EVENT_PROPERTY
            data := some (.propData name format pr.2) }

/-- One drain step of the dispatch bridge: the engine thread executes the
oldest enqueued request of this client, if any. -/
def engine_run_one (propSet : String → String → PropertyStatus)
    (propGet : String → PropVerb → PropertyStatus × Option String)
    (st : ClientState) : Option ClientState :=
  match st.queue with
  | [] => some st
  | r :: rest =>
    match runRequest propSet propGet st.handle r with
    | none => none
    | some h2 => some { st with handle := h2, queue := rest }

/-- The first client of a fresh engine (mpv_create, client.c lines 207-220)
once mpv_initialize has succeeded: the handle is named "main" and the
dispatch queue is empty. -/
def initClient : ClientState :=
  { initialized := true, handle := mkHandle "main", queue := [] }

/-- C2: reserved_events never exceeds max_events (1000 for a fresh handle):
reserve_reply increments reserved_events and returns the fresh, positive
reply ID exactly when reserved_events < max_events, and otherwise returns
MPV_ERROR_EVENT_BUFFER_FULL = -1 leaving the handle unchanged; send_reply
requires reserved_events > 0 (the assert aborts otherwise) and decrements it
by one, so both operations preserve reserved_events ≤ max_events. -/
theorem c2_reservation_safety :
    MPV_ERROR_EVENT_BUFFER_FULL = -1 ∧
    ∀ ctx : MpvHandle,
      (ctx.reserved_events < ctx.max_events →
        reserve_reply ctx =
          (((ctx.alloc_reply_id + 1 : Nat) : Int),
            { ctx with
              reserved_events := ctx.reserved_events + 1
              alloc_reply_id := ctx.alloc_reply_id + 1 }) ∧
        0 < (reserve_reply ctx).1) ∧
      (ctx.max_events ≤ ctx.reserved_events →
        reserve_reply ctx = (MPV_ERROR_EVENT_BUFFER_FULL, ctx)) ∧
      (ctx.reserved_events ≤ ctx.max_events →
        (reserve_reply ctx).2.reserved_events ≤ (reserve_reply ctx).2.max_events) ∧
      (ctx.reserved_events = 0 → ∀ id e, send_reply ctx id e = none) ∧
      (∀ id e h2, send_reply ctx id e = some h2 →
        0 < ctx.reserved_events ∧
        h2.reserved_events = ctx.reserved_events - 1 ∧
        (ctx.reserved_events ≤ ctx.max_events →
          h2.reserved_events ≤ h2.max_events)) ∧
      (∀ nm, (mkHandle nm).max_events = 1000 ∧ (mkHandle nm).reserved_events = 0) := by
  refine ⟨rfl, fun ctx => ⟨?_, ?_, ?_, ?_, ?_, ?_⟩⟩
  · intro h
    constructor
    · simp [reserve_reply, h]
    · simp [reserve_reply, h]
  · intro h
    simp [reserve_reply, Nat.not_lt.mpr h]
  · intro h
    unfold reserve_reply
    split <;> simp <;> omega
  · intro h id e
    simp [send_reply, h]
  · intro id e h2 hsome
    unfold send_reply at hsome
    split at hsome
    · rename_i hpos
      dsimp only at hsome
      split at hsome
      · have hh : _ = h2 := (Option.some.injEq _ _).mp hsome
        subst hh
        refine ⟨hpos, rfl, fun hle => ?_⟩
        show ctx.reserved_events - 1 ≤ ctx.max_events
        omega
      · exact absurd hsome (by simp)
    · exact absurd hsome (by simp)
  · intro nm
    exact ⟨rfl, rfl⟩

/-- Witness for c2_reservation_safety at a fresh handle: the reservation
branch applies and preserves the bound. -/
theorem c2_reservation_safety_witness :
    (mkHandle "w").reserved_events < (mkHandle "w").max_events ∧
    0 < (reserve_reply (mkHandle "w")).1 ∧
    (reserve_reply (mkHandle "w")).2.reserved_events ≤
      (reserve_reply (mkHandle "w")).2.max_events :=
  ⟨by decide,
   ((c2_reservation_safety.2 (mkHandle "w")).1 (by decide)).2,
   (c2_reservation_safety.2 (mkHandle "w")).2.2.1 (by decide)⟩

/-- C10: every return of mpv_wait_event leaves queued_wakeup false, whichever
branch produced the returned event, because the assignment
`ctx->queued_wakeup = false` sits after the loop on every return path. -/
theorem c10_wait_event_clears_queued_wakeup :
    ∀ (t : Rat) (us : List (MpvHandle → MpvHandle)) (ctx : MpvHandle)
      (e : MpvEventData) (h2 : MpvHandle),
      mpv_wait_event_go t ctx us = some (e, h2) → h2.queued_wakeup = false := by
  intro t us
  induction us with
  | nil =>
    intro ctx e h2 hrun
    rw [mpv_wait_event_go] at hrun
    cases hstep : wait_event_step ctx t with
    | ret ev hh =>
      rw [hstep] at hrun
      simp only [Option.some.injEq, Prod.mk.injEq] at hrun
      rw [← hrun.2]
    | block hh => rw [hstep] at hrun; simp at hrun
  | cons u rest ih =>
    intro ctx e h2 hrun
    rw [mpv_wait_event_go] at hrun
    cases hstep : wait_event_step ctx t with
    | ret ev hh =>
      rw [hstep] at hrun
      simp only [Option.some.injEq, Prod.mk.injEq] at hrun
      rw [← hrun.2]
    | block hh =>
      rw [hstep] at hrun
      exact ih (u hh) e h2 hrun

/-- Witness for c10_wait_event_clears_queued_wakeup: a handle with a pending
wakeup returns the NONE event and ends with queued_wakeup false. -/
theorem c10_wait_event_clears_queued_wakeup_witness :
    mpv_wait_event_go 0 { mkHandle "w" with queued_wakeup := true } [] =
      some (zeroEvent, mkHandle "w") ∧
    (mkHandle "w").queued_wakeup = false :=
  ⟨by decide,
   c10_wait_event_clears_queued_wakeup 0 []
     { mkHandle "w" with queued_wakeup := true } zeroEvent (mkHandle "w")
     (by decide)⟩

/-- C6: with the engine uninitialized, mpv_command, mpv_command_string,
mpv_set_property, mpv_get_property and all three async variants return
MPV_ERROR_UNINITIALIZED = -7 synchronously with the client state (ring,
reserved_events, reply-ID counter, dispatch queue) unchanged, so no reply
event can ever be produced; likewise a non-string format makes
mpv_set_property and mpv_set_property_async return
MPV_ERROR_INVALID_PARAMETER = -2 synchronously without touching the state. -/
theorem c6_submission_time_errors :
    MPV_ERROR_UNINITIALIZED = -7 ∧ MPV_ERROR_INVALID_PARAMETER = -2 ∧
    ∀ (st : ClientState) (pc : Option mp_cmd) (name value : String) (fmt : Int)
      (pset : String → String → PropertyStatus)
      (pget : String → PropVerb → PropertyStatus),
      (st.initialized = false →
        mpv_command st pc = (MPV_ERROR_UNINITIALIZED, st) ∧
        mpv_command_string st pc = (MPV_ERROR_UNINITIALIZED, st) ∧
        mpv_set_property st name fmt value pset = (MPV_ERROR_UNINITIALIZED, st) ∧
        mpv_get_property st name fmt pget = (MPV_ERROR_UNINITIALIZED, st) ∧
        mpv_command_async st pc = (MPV_ERROR_UNINITIALIZED, st) ∧
        mpv_set_property_async st name fmt value = (MPV_ERROR_UNINITIALIZED, st) ∧
        mpv_get_property_async st name fmt = (MPV_ERROR_UNINITIALIZED, st)) ∧
      (st.initialized = true → fmt ≠ MPV_FORMAT_STRING →
        mpv_set_property st name fmt value pset = (MPV_ERROR_INVALID_PARAMETER, st) ∧
        mpv_set_property_async st name fmt value = (MPV_ERROR_INVALID_PARAMETER, st)) := by
  refine ⟨rfl, rfl, fun st pc name value fmt pset pget => ⟨fun hinit => ?_, fun hinit hfmt => ?_⟩⟩
  · simp [mpv_command, mpv_command_string, run_client_command, mpv_set_property,
      mpv_get_property, mpv_command_async, mpv_set_property_async,
      mpv_get_property_async, hinit]
  · simp [mpv_set_property, mpv_set_property_async, hinit, hfmt]

/-- Witness for c6_submission_time_errors: a concrete uninitialized client and
a concrete wrong format on an initialized one. -/
theorem c6_submission_time_errors_witness :
    mpv_command_async { initialized := false, handle := mkHandle "m", queue := [] }
        (some ⟨0⟩) =
      (MPV_ERROR_UNINITIALIZED,
        { initialized := false, handle := mkHandle "m", queue := [] }) ∧
    mpv_set_property_async initClient "pause" MPV_FORMAT_NONE "yes" =
      (MPV_ERROR_INVALID_PARAMETER, initClient) :=
  ⟨((c6_submission_time_errors.2.2
      { initialized := false, handle := mkHandle "m", queue := [] }
      (some ⟨0⟩) "pause" "yes" MPV_FORMAT_NONE
      (fun _ _ => .M_PROPERTY_OK) (fun _ _ => .M_PROPERTY_OK)).1 rfl).2.2.2.2.1,
   ((c6_submission_time_errors.2.2 initClient (some ⟨0⟩) "pause" "yes"
      MPV_FORMAT_NONE (fun _ _ => .M_PROPERTY_OK) (fun _ _ => .M_PROPERTY_OK)).2
      rfl (by decide)).2⟩

/-- send_event never reaches its abort() branch: the free-slot guard checks
available/sizeof before writing, so the ring write is always whole. -/
theorem send_event_isSome (ctx : MpvHandle) (e : MpvEventData) :
    (send_event ctx e).isSome := by
  unfold send_event
  by_cases hm : Nat.testBit ctx.event_mask e.event_id
  · simp only [hm, not_true, if_neg, ite_false]
    by_cases hg : ctx.reserved_events < mp_ring_available ctx.events / eventSize
    · have hdiv : 0 < mp_ring_available ctx.events / eventSize :=
        lt_of_le_of_lt (Nat.zero_le _) hg
      have hav : eventSize ≤ mp_ring_available ctx.events := by
        have h24 : (0 : Nat) < eventSize := by norm_num [eventSize]
        exact (Nat.one_le_div_iff h24).mp hdiv
      simp [hg, mp_ring_write, hav]
    · by_cases hc : ctx.choke_warning <;> simp [hg, hc]
  · simp [hm]

/-- The broadcast fan-out loop never aborts. -/
theorem broadcast_clients_isSome (clients : List MpvHandle) (e : MpvEventData) :
    (broadcast_clients clients e).isSome := by
  induction clients with
  | nil => simp [broadcast_clients]
  | cons c rest ih =>
    rw [broadcast_clients]
    obtain ⟨res, hres⟩ := Option.isSome_iff_exists.mp (send_event_isSome c e)
    rw [hres]
    obtain ⟨rest2, hrest2⟩ := Option.isSome_iff_exists.mp ih
    rw [hrest2]
    simp

/-- C9: mp_client_broadcast_event calls talloc_free on its data payload
exactly once, after the fan-out over all registered clients (including none)
completes, whatever the per-client mask filtering or drops do; the fan-out
itself performs no free.  mp_client_send_event frees data exactly once when
the named client is not found (returning -1), and performs no free when the
client is found and delivery is attempted. -/
theorem c9_payload_freed_exactly_once :
    (∀ (clients : List MpvHandle) (event : Nat) (data : Option Payload),
      ∃ cs, mp_client_broadcast_event clients event data = some (cs, [data])) ∧
    (∀ (clients : List MpvHandle) (nm : String) (event : Nat)
       (data : Option Payload) (r : Int) (cs : List MpvHandle)
       (freed : List (Option Payload)),
      mp_client_send_event clients nm event data = some (r, cs, freed) →
      ((find_client clients nm).isSome → freed = []) ∧
      (find_client clients nm = none → freed = [data] ∧ r = -1)) := by
  constructor
  · intro clients event data
    unfold mp_client_broadcast_event
    dsimp only
    have htot := broadcast_clients_isSome clients
      { zeroEvent with event_id := event, data := data }
    dsimp only at htot
    obtain ⟨cs, hcs⟩ := Option.isSome_iff_exists.mp htot
    rw [hcs]
    exact ⟨cs, rfl⟩
  · intro clients nm event data r cs freed hrun
    unfold mp_client_send_event at hrun
    dsimp only at hrun
    cases hfind : find_client clients nm with
    | some ctx =>
      rw [hfind] at hrun
      dsimp only at hrun
      refine ⟨fun _ => ?_, fun hnone => by simp at hnone⟩
      split at hrun
      · simp at hrun
      · simp only [Option.some.injEq, Prod.mk.injEq] at hrun
        exact hrun.2.2.symm
    | none =>
      rw [hfind] at hrun
      dsimp only at hrun
      simp only [Option.some.injEq, Prod.mk.injEq] at hrun
      exact ⟨fun hs => by simp at hs, fun _ => ⟨hrun.2.2.symm, hrun.1.symm⟩⟩

/-- Witness for c9_payload_freed_exactly_once: a two-client registry and a
missing client. -/
theorem c9_payload_freed_exactly_once_witness :
    (∃ cs, mp_client_broadcast_event [mkHandle "a", mkHandle "b"]
        MPV_EVENT_PAUSE (some (.ptr 7)) = some (cs, [some (.ptr 7)])) ∧
    (find_client [mkHandle "a"] "b" = none →
      [some (Payload.ptr 7)] = [some (.ptr 7)] ∧ (-1 : Int) = -1) :=
  ⟨c9_payload_freed_exactly_once.1 [mkHandle "a", mkHandle "b"]
      MPV_EVENT_PAUSE (some (.ptr 7)),
   (c9_payload_freed_exactly_once.2 [mkHandle "a"] "b" MPV_EVENT_PAUSE
      (some (.ptr 7)) (-1) [mkHandle "a"] [some (.ptr 7)] (by decide)).2⟩

/-- A sequence of send_event calls on one handle, accumulating how many times
the "Too many events queued" line was logged; `none` propagates an abort. -/
def send_events_from (ctx : MpvHandle) : List MpvEventData → Option (MpvHandle × Nat)
  | [] => some (ctx, 0)
  | e :: rest =>
    match send_event ctx e with
    | none => none
    | some res =>
      match send_events_from res.ctx rest with
      | none => none
      | some (h, k) => some (h, (if res.logged then 1 else 0) + k)

/-- The choke_warning latch: a send_event call logs only when the latch was
clear, and it sets the latch exactly then; no call ever clears it. -/
theorem send_event_choke_latch (ctx : MpvHandle) (e : MpvEventData)
    (res : SendEventResult) (h : send_event ctx e = some res) :
    (res.logged = true → ctx.choke_warning = false ∧ res.ctx.choke_warning = true) ∧
    (res.logged = false → res.ctx.choke_warning = ctx.choke_warning) := by
  unfold send_event at h
  split at h
  · simp only [Option.some.injEq] at h
    subst h
    exact ⟨fun hl => by simp at hl, fun _ => rfl⟩
  · dsimp only at h
    split at h
    · split at h
      · simp only [Option.some.injEq] at h
        subst h
        exact ⟨fun hl => by simp at hl, fun _ => rfl⟩
      · simp at h
    · split at h
      · simp only [Option.some.injEq] at h
        subst h
        rename_i hwarn
        exact ⟨fun _ => ⟨by simpa using hwarn, rfl⟩, fun hl => by simp at hl⟩
      · simp only [Option.some.injEq] at h
        subst h
        exact ⟨fun hl => by simp at hl, fun _ => rfl⟩

/-- Over any sequence of send_event calls, the choke warning is logged at
most once more than the latch already allows. -/
theorem send_events_from_log_bound :
    ∀ (es : List MpvEventData) (ctx h : MpvHandle) (k : Nat),
      send_events_from ctx es = some (h, k) →
      k ≤ if ctx.choke_warning then 0 else 1 := by
  intro es
  induction es with
  | nil =>
    intro ctx h k hrun
    rw [send_events_from] at hrun
    simp only [Option.some.injEq, Prod.mk.injEq] at hrun
    omega
  | cons e rest ih =>
    intro ctx h k hrun
    rw [send_events_from] at hrun
    cases hsend : send_event ctx e with
    | none => rw [hsend] at hrun; simp at hrun
    | some res =>
      rw [hsend] at hrun
      dsimp only at hrun
      cases hrest : send_events_from res.ctx rest with
      | none => rw [hrest] at hrun; simp at hrun
      | some p =>
        obtain ⟨h2, k2⟩ := p
        rw [hrest] at hrun
        simp only [Option.some.injEq, Prod.mk.injEq] at hrun
        have hk2 := ih res.ctx h2 k2 hrest
        obtain ⟨hlog, hnolog⟩ := send_event_choke_latch ctx e res hsend
        cases hl : res.logged with
        | true =>
          obtain ⟨hc0, hc1⟩ := hlog hl
          rw [hl] at hrun
          rw [hc1] at hk2
          rw [hc0]
          simp at hk2 hrun ⊢
          omega
        | false =>
          have hsame := hnolog hl
          rw [hl] at hrun
          rw [hsame] at hk2
          simp only [Bool.false_eq_true, if_false] at hrun
          omega

/-- C3: send_event returns success leaving the handle untouched when the mask
bit of the event kind is clear; otherwise it writes the whole record and
signals the wakeup exactly when ring.available() / sizeof(event) exceeds
reserved_events, and on a drop it returns -1, keeps the ring unchanged, logs
the "Too many events queued" line iff the choke_warning latch was clear and
leaves the latch set, so over any sequence of sends from a fresh handle
(latch clear, as mp_new_client builds it) the line is logged at most once. -/
theorem c3_send_event_contract :
    ∀ (ctx : MpvHandle) (e : MpvEventData),
      (Nat.testBit ctx.event_mask e.event_id = false →
        send_event ctx e = some ⟨ctx, 0, false, false⟩) ∧
      (Nat.testBit ctx.event_mask e.event_id = true →
        ∀ res, send_event ctx e = some res →
          ((res.wokeUp = true) ↔
            ctx.reserved_events < mp_ring_available ctx.events / eventSize) ∧
          (res.wokeUp = true →
            res.ctx.events.buf = ctx.events.buf ++ [e] ∧ res.ret = 0 ∧
            res.logged = false) ∧
          (res.wokeUp = false →
            res.ret = -1 ∧ res.ctx.events = ctx.events ∧
            ((res.logged = true) ↔ ctx.choke_warning = false) ∧
            res.ctx.choke_warning = true)) ∧
      (ctx.choke_warning = false →
        ∀ es h k, send_events_from ctx es = some (h, k) → k ≤ 1) ∧
      (∀ nm, (mkHandle nm).choke_warning = false) := by
  intro ctx e
  refine ⟨fun hm => ?_, fun hm res hres => ?_, fun hc es h k hrun => ?_, fun nm => rfl⟩
  · simp [send_event, hm]
  · unfold send_event at hres
    rw [hm] at hres
    simp only [not_true, if_neg, ite_false, if_false] at hres
    split at hres
    · rename_i hguard
      have hdiv : 0 < mp_ring_available ctx.events / eventSize :=
        lt_of_le_of_lt (Nat.zero_le _) hguard
      have hav : eventSize ≤ mp_ring_available ctx.events :=
        (Nat.one_le_div_iff (by norm_num [eventSize])).mp hdiv
      rw [mp_ring_write, if_pos hav] at hres
      split at hres
      · simp only [Option.some.injEq] at hres
        subst hres
        refine ⟨by simpa using hguard, fun _ => ⟨rfl, rfl, rfl⟩, fun hw => by simp at hw⟩
      · rename_i hne
        exact absurd rfl hne
    · rename_i hguard
      split at hres
      · simp only [Option.some.injEq] at hres
        subst hres
        rename_i hwarn
        refine ⟨by simpa using hguard, fun hw => by simp at hw,
          fun _ => ⟨rfl, rfl, by simpa using hwarn, rfl⟩⟩
      · simp only [Option.some.injEq] at hres
        subst hres
        rename_i hwarn
        refine ⟨by simpa using hguard, fun hw => by simp at hw,
          fun _ => ⟨rfl, rfl, by simpa using hwarn, by simpa using hwarn⟩⟩
  · have := send_events_from_log_bound es ctx h k hrun
    rw [hc] at this
    simpa using this

/-- Witness for c3_send_event_contract: a TICK event is masked out by the
default mask and a fresh handle has the latch clear. -/
theorem c3_send_event_contract_witness :
    Nat.testBit (mkHandle "w").event_mask MPV_EVENT_TICK = false ∧
    send_event (mkHandle "w") { zeroEvent with event_id := MPV_EVENT_TICK } =
      some ⟨mkHandle "w", 0, false, false⟩ :=
  ⟨by decide,
   (c3_send_event_contract (mkHandle "w")
      { zeroEvent with event_id := MPV_EVENT_TICK }).1 (by decide)⟩

/-- C4: mpv_wait_event settles its sources in priority order, returning at the
first that applies: (1) a buffered ring record is popped and returned; (2) the
shutdown flag yields a SHUTDOWN event; (3) a pending log-tap message yields a
LOG_MESSAGE event; (4) a queued wakeup is cleared and yields NONE; (5) a
non-positive timeout yields NONE; (6) only when none of these apply does the
loop body reach the condition-variable wait, the sole blocking point. -/
theorem c4_wait_event_priority :
    ∀ (ctx : MpvHandle) (t : Rat),
      (∀ e ring2, mp_ring_read ctx.events = some (e, ring2) →
        ∀ us, mpv_wait_event_go t ctx us =
          some (e, { ctx with events := ring2, queued_wakeup := false })) ∧
      (mp_ring_read ctx.events = none → ctx.shutdown = true →
        ∀ us, mpv_wait_event_go t ctx us =
          some ({ zeroEvent with event_id := MPV_EVENT_SHUTDOWN },
            { ctx with queued_wakeup := false })) ∧
      (mp_ring_read ctx.events = none → ctx.shutdown = false →
        ∀ m ms2, tap_read ctx.messages = some (m, ms2) →
        ∀ us, mpv_wait_event_go t ctx us =
          some ({ zeroEvent with
                  event_id := MPV_EVENT_LOG_MESSAGE
                  data := some (.logMsg m) },
            { ctx with messages := ms2, queued_wakeup := false })) ∧
      (mp_ring_read ctx.events = none → ctx.shutdown = false →
        tap_read ctx.messages = none → ctx.queued_wakeup = true →
        ∀ us, mpv_wait_event_go t ctx us =
          some (zeroEvent, { ctx with queued_wakeup := false })) ∧
      (mp_ring_read ctx.events = none → ctx.shutdown = false →
        tap_read ctx.messages = none → ctx.queued_wakeup = false → t ≤ 0 →
        ∀ us, mpv_wait_event_go t ctx us =
          some (zeroEvent, { ctx with queued_wakeup := false })) ∧
      (∀ hb, wait_event_step ctx t = .block hb →
        hb = ctx ∧ mp_ring_read ctx.events = none ∧ ctx.shutdown = false ∧
        tap_read ctx.messages = none ∧ ctx.queued_wakeup = false ∧ 0 < t ∧
        mpv_wait_event_go t ctx [] = none) := by
  intro ctx t
  refine ⟨?_, ?_, ?_, ?_, ?_, ?_⟩
  · intro e ring2 hread us
    rw [mpv_wait_event_go, wait_event_step, hread]
  · intro hread hsd us
    rw [mpv_wait_event_go, wait_event_step, hread]
    simp [hsd]
  · intro hread hsd m ms2 htap us
    rw [mpv_wait_event_go, wait_event_step, hread]
    simp [hsd, htap]
  · intro hread hsd htap hqw us
    rw [mpv_wait_event_go, wait_event_step, hread]
    simp [hsd, htap, hqw]
  · intro hread hsd htap hqw ht us
    rw [mpv_wait_event_go, wait_event_step, hread]
    simp [hsd, htap, hqw, ht]
  · intro hb hstep
    unfold wait_event_step at hstep
    cases hread : mp_ring_read ctx.events with
    | some p => rw [hread] at hstep; simp at hstep
    | none =>
      rw [hread] at hstep
      dsimp only at hstep
      cases hsd : ctx.shutdown with
      | true => rw [hsd] at hstep; simp at hstep
      | false =>
        rw [hsd] at hstep
        simp only [Bool.false_eq_true, if_false] at hstep
        cases htap : tap_read ctx.messages with
        | some p => rw [htap] at hstep; simp at hstep
        | none =>
          rw [htap] at hstep
          dsimp only at hstep
          cases hqw : ctx.queued_wakeup with
          | true => rw [hqw] at hstep; simp at hstep
          | false =>
            rw [hqw] at hstep
            simp only [Bool.false_eq_true, if_false] at hstep
            by_cases ht : t ≤ 0
            · rw [if_pos ht] at hstep; simp at hstep
            · rw [if_neg ht] at hstep
              simp only [WaitOutcome.block.injEq] at hstep
              refine ⟨hstep.symm, rfl, rfl, rfl, rfl, by linarith [not_le.mp ht], ?_⟩
              rw [mpv_wait_event_go, wait_event_step, hread]
              simp [hsd, htap, hqw, if_neg ht]

/-- Handle used to witness c4_wait_event_priority: one buffered PAUSE record
while shutdown and queued_wakeup are both set. -/
def c4WitnessHandle : MpvHandle :=
  { mkHandle "w" with
    shutdown := true
    queued_wakeup := true
    events :=
      { capacity := 1000 * eventSize
        buf := [{ zeroEvent with event_id := MPV_EVENT_PAUSE }] } }

/-- Witness for c4_wait_event_priority: the buffered record is returned ahead
of the set shutdown flag and the pending wakeup. -/
theorem c4_wait_event_priority_witness :
    mp_ring_read c4WitnessHandle.events =
      some ({ zeroEvent with event_id := MPV_EVENT_PAUSE },
        { capacity := 1000 * eventSize, buf := [] }) ∧
    mpv_wait_event_go 0 c4WitnessHandle [] =
      some ({ zeroEvent with event_id := MPV_EVENT_PAUSE },
        { c4WitnessHandle with
          events := { capacity := 1000 * eventSize, buf := [] }
          queued_wakeup := false }) :=
  ⟨by decide,
   (c4_wait_event_priority c4WitnessHandle 0).1
      { zeroEvent with event_id := MPV_EVENT_PAUSE }
      { capacity := 1000 * eventSize, buf := [] } (by decide) []⟩

/-- C5 counterexample: a client that disabled MPV_EVENT_OK through
mpv_request_event still observes an OK event in its wait stream, because
send_reply (used for reserved replies) never consults the event mask: after
reserving a reply and sending a status reply, mpv_wait_event returns an event
of the disabled kind. -/
theorem c5_mask_gate_counterexample :
    Nat.testBit (mpv_request_event (mkHandle "cl") 1 0).2.event_mask
        MPV_EVENT_OK = false ∧
    (reserve_reply (mpv_request_event (mkHandle "cl") 1 0).2).1 = 1 ∧
    ((mp_client_status_reply
        (reserve_reply (mpv_request_event (mkHandle "cl") 1 0).2).2 1 0).bind
      (fun h => (mpv_wait_event_go 0 h []).map (fun q => q.1.event_id))) =
      some MPV_EVENT_OK := by decide

/-- C5 (amended): the mask gate holds for the send_event delivery path only
(broadcast and targeted sends): a clear mask bit for kind K keeps send_event
from ever enqueuing an event of kind K, and send_event never alters the mask,
so no event of kind K reaches the ring through it; reserved replies
(send_reply) and mpv_wait_event's own SHUTDOWN and LOG_MESSAGE synthesis
bypass the mask. -/
theorem c5_mask_gate_send_event_only :
    ∀ (ctx : MpvHandle) (e : MpvEventData) (res : SendEventResult) (K : Nat),
      Nat.testBit ctx.event_mask K = false →
      send_event ctx e = some res →
      res.ctx.event_mask = ctx.event_mask ∧
      ((∀ ev ∈ ctx.events.buf, ev.event_id ≠ K) →
        ∀ ev ∈ res.ctx.events.buf, ev.event_id ≠ K) := by
  intro ctx e res K hK hres
  unfold send_event at hres
  split at hres
  · simp only [Option.some.injEq] at hres
    subst hres
    exact ⟨rfl, fun hall => hall⟩
  · rename_i hmask
    have he : e.event_id ≠ K := by
      intro heq
      rw [heq] at hmask
      exact hmask (by simp [hK])
    dsimp only at hres
    split at hres
    · rename_i hguard
      have hdiv : 0 < mp_ring_available ctx.events / eventSize :=
        lt_of_le_of_lt (Nat.zero_le _) hguard
      have hav : eventSize ≤ mp_ring_available ctx.events :=
        (Nat.one_le_div_iff (by norm_num [eventSize])).mp hdiv
      rw [mp_ring_write, if_pos hav] at hres
      split at hres
      · simp only [Option.some.injEq] at hres
        subst hres
        refine ⟨rfl, fun hall ev hev => ?_⟩
        have hmem : ev ∈ ctx.events.buf ++ [e] := hev
        rcases List.mem_append.mp hmem with hold | hnew
        · exact hall ev hold
        · rw [List.mem_singleton.mp hnew]
          exact he
      · rename_i hne
        exact absurd rfl hne
    · split at hres
      · simp only [Option.some.injEq] at hres
        subst hres
        exact ⟨rfl, fun hall => hall⟩
      · simp only [Option.some.injEq] at hres
        subst hres
        exact ⟨rfl, fun hall => hall⟩

/-- Witness for c5_mask_gate_send_event_only: with TICK masked off by default,
a TICK send leaves a fresh handle's empty ring free of TICK events. -/
theorem c5_mask_gate_send_event_only_witness :
    Nat.testBit (mkHandle "w").event_mask MPV_EVENT_TICK = false ∧
    (∀ ev ∈ (SendEventResult.mk (mkHandle "w") 0 false false).ctx.events.buf,
      ev.event_id ≠ MPV_EVENT_TICK) :=
  ⟨by decide,
   (c5_mask_gate_send_event_only (mkHandle "w")
      { zeroEvent with event_id := MPV_EVENT_TICK }
      (SendEventResult.mk (mkHandle "w") 0 false false) MPV_EVENT_TICK
      (by decide) (by decide)).2 (by decide)⟩

/-- find_client returns none exactly when no registered client has the name. -/
theorem find_client_eq_none {clients : List MpvHandle} {s : String} :
    find_client clients s = none ↔ ∀ c ∈ clients, c.name ≠ s := by
  simp [find_client, List.find?_eq_none]

/-- Characterization of a successful suffix search: the found name is the
first free candidate in the scanned range. -/
theorem find_suffix_loop_some (clients : List MpvHandle) (name : String) :
    ∀ (fuel n : Nat) (s : String),
      find_suffix_loop clients name n fuel = some s →
      ∃ m, n ≤ m ∧ m < n + fuel ∧ m < 1000 ∧ s = name ++ Nat.repr m ∧
        find_client clients s = none ∧
        ∀ k, n ≤ k → k < m → find_client clients (name ++ Nat.repr k) ≠ none := by
  intro fuel
  induction fuel with
  | zero =>
    intro n s h
    rw [find_suffix_loop] at h
    simp at h
  | succ fuel ih =>
    intro n s h
    rw [find_suffix_loop] at h
    by_cases hn : n < 1000
    · rw [if_pos hn] at h
      dsimp only at h
      by_cases hf : find_client clients (name ++ Nat.repr n) = none
      · rw [if_pos hf] at h
        simp only [Option.some.injEq] at h
        subst h
        exact ⟨n, le_refl n, by omega, hn, rfl, hf, fun k hk1 hk2 => absurd hk1 (by omega)⟩
      · rw [if_neg hf] at h
        obtain ⟨m, h1, h2, h3, h4, h5, h6⟩ := ih (n + 1) s h
        refine ⟨m, by omega, by omega, h3, h4, h5, fun k hk1 hk2 => ?_⟩
        by_cases hkn : k = n
        · rw [hkn]; exact hf
        · exact h6 k (by omega) hk2
    · rw [if_neg hn] at h
      simp at h

/-- A failed suffix search means every candidate in the scanned range is
taken. -/
theorem find_suffix_loop_none (clients : List MpvHandle) (name : String) :
    ∀ (fuel n : Nat),
      (∀ k, n ≤ k → k < 1000 → k < n + fuel →
        find_client clients (name ++ Nat.repr k) ≠ none) →
      find_suffix_loop clients name n fuel = none := by
  intro fuel
  induction fuel with
  | zero => intro n htaken; rw [find_suffix_loop]
  | succ fuel ih =>
    intro n htaken
    rw [find_suffix_loop]
    by_cases hn : n < 1000
    · rw [if_pos hn]
      dsimp only
      rw [if_neg (htaken n (le_refl n) hn (by omega))]
      exact ih (n + 1) (fun k hk1 hk2 hk3 => htaken k (by omega) hk2 (by omega))
    · rw [if_neg hn]

/-- C7: mp_new_client registers the requested name exactly when it is free; on
collision it registers the first free name among name2..name999 (appending
the handle to the table), fails returning NULL when all 998 suffixed names
are taken, and the registered name is always absent from the prior registry,
so pairwise-distinct client names stay pairwise distinct. -/
theorem c7_new_client_unique_names :
    ∀ (clients : List MpvHandle) (name : String),
      (find_client clients name = none →
        mp_new_client clients name =
          some (mkHandle name, clients ++ [mkHandle name])) ∧
      ((find_client clients name).isSome →
        ∀ h cs, mp_new_client clients name = some (h, cs) →
          cs = clients ++ [h] ∧ find_client clients h.name = none ∧
          ∃ m, 2 ≤ m ∧ m < 1000 ∧ h.name = name ++ Nat.repr m ∧
            ∀ k, 2 ≤ k → k < m →
              find_client clients (name ++ Nat.repr k) ≠ none) ∧
      ((find_client clients name).isSome →
        (∀ k, 2 ≤ k → k < 1000 →
          find_client clients (name ++ Nat.repr k) ≠ none) →
        mp_new_client clients name = none) ∧
      (∀ h cs, mp_new_client clients name = some (h, cs) →
        (clients.map MpvHandle.name).Nodup → (cs.map MpvHandle.name).Nodup) := by
  intro clients name
  have hreg : ∀ h cs, mp_new_client clients name = some (h, cs) →
      cs = clients ++ [h] ∧ find_client clients h.name = none := by
    intro h cs hrun
    unfold mp_new_client at hrun
    by_cases hfree : (find_client clients name).isSome
    · rw [if_pos hfree] at hrun
      cases hsuf : find_suffix_from clients name with
      | none => rw [hsuf] at hrun; simp at hrun
      | some un =>
        rw [hsuf] at hrun
        simp only [Option.some.injEq, Prod.mk.injEq] at hrun
        obtain ⟨m, _, _, _, _, hfreeu, _⟩ :=
          find_suffix_loop_some clients name 998 2 un hsuf
        rw [← hrun.1, ← hrun.2]
        exact ⟨rfl, hfreeu⟩
    · rw [if_neg hfree] at hrun
      simp only [Option.some.injEq, Prod.mk.injEq] at hrun
      rw [← hrun.1, ← hrun.2]
      exact ⟨rfl, Option.not_isSome_iff_eq_none.mp hfree⟩
  refine ⟨fun hfree => ?_, fun htaken h cs hrun => ?_, fun htaken hall => ?_,
    fun h cs hrun hnd => ?_⟩
  · unfold mp_new_client
    rw [hfree]
    simp
  · obtain ⟨hcs, hfreeh⟩ := hreg h cs hrun
    refine ⟨hcs, hfreeh, ?_⟩
    unfold mp_new_client at hrun
    rw [if_pos htaken] at hrun
    cases hsuf : find_suffix_from clients name with
    | none => rw [hsuf] at hrun; simp at hrun
    | some un =>
      rw [hsuf] at hrun
      simp only [Option.some.injEq, Prod.mk.injEq] at hrun
      obtain ⟨m, hm1, hm2, hm3, hm4, hm5, hm6⟩ :=
        find_suffix_loop_some clients name 998 2 un hsuf
      refine ⟨m, hm1, hm3, ?_, fun k hk1 hk2 => hm6 k hk1 hk2⟩
      rw [← hrun.1, hm4]
      rfl
  · unfold mp_new_client
    rw [if_pos htaken]
    rw [find_suffix_from,
      find_suffix_loop_none clients name 998 2
        (fun k hk1 hk2 _ => hall k hk1 hk2)]
  · obtain ⟨hcs, hfreeh⟩ := hreg h cs hrun
    rw [hcs, List.map_append, List.nodup_append]
    refine ⟨hnd, by simp, ?_⟩
    intro x hx
    simp only [List.map_cons, List.map_nil, List.mem_cons, List.not_mem_nil,
      or_false, List.mem_singleton]
    intro hxh
    obtain ⟨c, hc, hcname⟩ := List.mem_map.mp hx
    exact (find_client_eq_none.mp hfreeh c hc) (by rw [hcname, hxh])

/-- Witness for c7_new_client_unique_names: an empty registry takes the exact
name, and a second client named "A" becomes "A2". -/
theorem c7_new_client_unique_names_witness :
    mp_new_client [] "A" = some (mkHandle "A", [mkHandle "A"]) ∧
    (mp_new_client [mkHandle "A"] "A").map (fun p => p.1.name) = some "A2" :=
  ⟨(c7_new_client_unique_names [] "A").1 (by decide), by decide⟩

/-- C1 evaluation at the failing input: on a fresh initialized client,
mpv_command_async returns the positive reply ID 1, yet after the engine
executes the request the delivered OK event carries in_reply_to = 0, not 1 -
send_reply never stores its reply_id argument into the event record, and
every reply record is built with in_reply_to zero-initialized, contradicting
the claim and the in_reply_to documentation in client_api.h. -/
theorem c1_reply_event_carries_zero :
    (mpv_command_async initClient (some ⟨0⟩)).1 = 1 ∧
    ((engine_run_one (fun _ _ => .M_PROPERTY_OK)
        (fun _ _ => (.M_PROPERTY_OK, some "v"))
        (mpv_command_async initClient (some ⟨0⟩)).2).bind
      (fun st2 => (mpv_wait_event_go 0 st2.handle []).map
        (fun q => (q.1.event_id, q.1.in_reply_to)))) =
      some (MPV_EVENT_OK, 0) ∧
    (0 : Int) ≠ 1 := by decide

/-- C8 evaluation: the reply IDs of consecutive successful asynchronous
submissions are 1 then 2 (strictly increasing from 1, as claimed), but the
reply event answering the request with ID 1 carries in_reply_to = 0, so 0 is
not reserved to events that are no reply to a request: this revision stores
0 in in_reply_to of every event, replies included. -/
theorem c8_reply_ids_increase_but_zero_is_reused :
    (mpv_command_async initClient (some ⟨0⟩)).1 = 1 ∧
    (mpv_command_async (mpv_command_async initClient (some ⟨0⟩)).2
        (some ⟨1⟩)).1 = 2 ∧
    ((engine_run_one (fun _ _ => .M_PROPERTY_OK)
        (fun _ _ => (.M_PROPERTY_OK, some "v"))
        (mpv_command_async (mpv_command_async initClient (some ⟨0⟩)).2
          (some ⟨1⟩)).2).bind
      (fun st2 => (mpv_wait_event_go 0 st2.handle []).map
        (fun q => q.1.in_reply_to))) = some 0 := by decide
